import Mathlib

/-!
Verification of the streaming translation pipeline of the
RealTimeTranslator repository.

The repository contains two pipeline implementations:
`WhisperRealtimeTranslator` (advanced_whisper_translator.py) and
`RealtimeTranslator` (realtime_translator.py).  Each is a four-stage
pipeline (capture, transcribe, translate, synthesize/play) connected by
`queue.Queue` hand-off queues and a shared `is_running` flag.

The shallow embedding below models audio samples as rationals (the
normalized [-1,1] float amplitudes of the source), queues as lists
(front = head), external engines (speech-to-text, translation,
text-to-speech) as oracle functions returning `Except String String`
(`Except.error` models a raised exception), and each worker's loop body
as a pure step function; a worker's run over a finite input schedule is
the fold of its step.
-/

/-- One audio sample, a normalized amplitude as in the float32 stream
of advanced_whisper_translator.py. -/
abbrev Sample := ℚ

/-- A bounded span of captured audio: the list of samples of one chunk. -/
abbrev AudioChunk := List Sample

/-- Embedding of numpy abs(chunk).max(): the peak absolute amplitude of a
chunk (0 for the empty chunk; the source only evaluates it on non-empty
buffers). -/
def peakAmplitude (c : AudioChunk) : ℚ :=
  c.foldr (fun x m => max |x| m) 0

/-- The silence threshold hard-coded as 0.01 in
advanced_whisper_translator.py line 103, written with `mkRat` so that it
evaluates in the kernel. -/
def silenceThreshold : ℚ := mkRat 1 100

/-- Embedding of Python queue construction: `queue.Queue()` has no
capacity (maxsize 0 means unbounded), `queue.Queue(maxsize=m)` has
capacity m.  `none` models the unbounded case. -/
def queue_put (maxsize : Option Nat) (q : List α) (x : α) : List α :=
  match maxsize with
  | none => q ++ [x]
  | some m => if q.length < m then q ++ [x] else q

/-- Embedding of `queue.Queue.put_nowait` on a queue of capacity m: on a
non-full queue the item is appended and `true` is returned; on a full
queue the queue is unchanged and `false` models the raised `queue.Full`. -/
def queue_put_nowait (m : Nat) (q : List α) (x : α) : List α × Bool :=
  if q.length < m then (q ++ [x], true) else (q, false)

/-- Embedding of Python's `str.strip()` (used on the Whisper result at
advanced_whisper_translator.py line 130): drop whitespace from both
ends.  Written on the character list so that it evaluates in the
kernel, unlike `String.trim`. -/
def pyStrip (s : String) : String :=
  String.mk
    ((s.data.dropWhile Char.isWhitespace).reverse.dropWhile
      Char.isWhitespace).reverse

/-!  Stage 4 (Synthesizer/Player) is textually identical in both
implementations (`speak_translation`, realtime_translator.py lines
193-231 and advanced_whisper_translator.py lines 175-212), so it is
modelled once. -/

/-- Embedding of one iteration body of `speak_translation` on a dequeued
text: gTTS / pygame playback is the oracle `tts`; an exception from it is
caught by the `except Exception` handler and the item is dropped
(`none`), otherwise the synthesized-and-played audio is returned. -/
def speak_translation_step (tts : String → Except String String) (t : String) :
    Option String :=
  match tts t with
  | Except.ok a => some a
  | Except.error _ => none

/-- Embedding of the drain phase of `speak_translation` after the
running flag is false: the loop `while is_running or not
translation_queue.empty()` dequeues and processes every remaining item
in FIFO order until the queue is empty. -/
def speak_translation_drain (tts : String → Except String String)
    (translation_queue : List String) : List String :=
  translation_queue.filterMap (speak_translation_step tts)

/-- Embedding of the loop guard of `speak_translation`:
`while self.is_running or not self.translation_queue.empty()`. -/
def speaker_loop_continues (is_running : Bool) (translation_queue : List String) :
    Bool :=
  is_running || !translation_queue.isEmpty

namespace WhisperRealtimeTranslator

/-!  Model of advanced_whisper_translator.py. -/

/-- The queues built in `__init__` lines 60-62 are all `queue.Queue()`
with no maxsize: capture→transcription queue, unbounded. -/
def audio_queue_maxsize : Option Nat := none

/-- Transcription→translation queue of `__init__`: unbounded. -/
def text_queue_maxsize : Option Nat := none

/-- Translation→synthesis queue of `__init__`: unbounded. -/
def translation_queue_maxsize : Option Nat := none

/-- Embedding of one tick of `record_audio_chunk` (lines 95-108): if the
accumulated buffer is non-empty and its peak absolute amplitude exceeds
the 0.01 silence threshold, the chunk is put on the (unbounded) audio
queue; otherwise it is discarded.  Returns the new queue and whether the
chunk was enqueued. -/
def record_audio_chunk_step (audio_buffer : AudioChunk)
    (audio_queue : List AudioChunk) : List AudioChunk × Bool :=
  if audio_buffer.length > 0 then
    if silenceThreshold < peakAmplitude audio_buffer then
      (audio_queue ++ [audio_buffer], true)
    else (audio_queue, false)
  else (audio_queue, false)

/-- The capture worker run over a finite schedule of accumulated
buffers, starting from an empty audio queue. -/
def record_audio_chunk_run (buffers : List AudioChunk) : List AudioChunk :=
  buffers.foldl (fun q b => (record_audio_chunk_step b q).1) []

/-- Embedding of one iteration of `transcribe_audio` (lines 115-141) on
a dequeued chunk: the Whisper call is the oracle `stt`; an exception is
caught (nothing enqueued); the returned text is stripped and, if
non-empty, put on the text queue (`some`), else discarded (`none`). -/
def transcribe_audio_step (stt : AudioChunk → Except String String)
    (audio_chunk : AudioChunk) : Option String :=
  match stt audio_chunk with
  | Except.error _ => none
  | Except.ok s => if pyStrip s = "" then none else some (pyStrip s)

/-- The transcriber worker run over the chunks it dequeues, in FIFO
order; the text queue receives exactly the non-dropped results in
order. -/
def transcribe_audio_run (stt : AudioChunk → Except String String)
    (chunks : List AudioChunk) : List String :=
  chunks.filterMap (transcribe_audio_step stt)

/-- The translation cache `self.translation_cache` (a Python dict from
source text to translated text), modelled as an association list in
insertion order. -/
abbrev TranslationCache := List (String × String)

/-- Embedding of the dict operations `text in self.translation_cache` /
`self.translation_cache[text]`: exact string-equality lookup. -/
def cache_lookup (t : String) : TranslationCache → Option String
  | [] => none
  | (k, v) :: rest => if k = t then some v else cache_lookup t rest

/-- Outcome tag of one translator iteration. -/
inductive TranslateEvent
  | cacheHit
  | engineOk
  | engineFailed
deriving DecidableEq

/-- Result of one iteration of `translate_text`: the cache afterwards,
the text put on the translation queue (if any), how many times the
external engine was invoked (0 or 1), and the outcome tag. -/
structure TranslateStepResult where
  cache : TranslationCache
  output : Option String
  engineCalls : Nat
  event : TranslateEvent
deriving DecidableEq

/-- Embedding of one iteration of `translate_text` (lines 148-173) on a
dequeued text: check the cache first; on a hit use the cached value with
no engine call; on a miss invoke the engine, and on success store the
result keyed by the source text and enqueue it; an engine exception is
caught by the `except Exception` handler, leaving the cache unchanged
and enqueueing nothing. -/
def translate_text_step (engine : String → Except String String)
    (cache : TranslationCache) (t : String) : TranslateStepResult :=
  match cache_lookup t cache with
  | some v => ⟨cache, some v, 0, TranslateEvent.cacheHit⟩
  | none =>
    match engine t with
    | Except.ok v => ⟨cache ++ [(t, v)], some v, 1, TranslateEvent.engineOk⟩
    | Except.error _ => ⟨cache, none, 1, TranslateEvent.engineFailed⟩

/-- Result of a translator run: final cache, the texts put on the
translation queue in order, and the total number of engine invocations. -/
structure TranslateRunResult where
  cache : TranslationCache
  outputs : List String
  engineCalls : Nat
deriving DecidableEq

/-- The translator worker run over the texts it dequeues in FIFO order. -/
def translate_text_run (engine : String → Except String String)
    (cache : TranslationCache) : List String → TranslateRunResult
  | [] => ⟨cache, [], 0⟩
  | t :: ts =>
    let s := translate_text_step engine cache t
    let r := translate_text_run engine s.cache ts
    ⟨r.cache,
     (match s.output with
      | some v => v :: r.outputs
      | none => r.outputs),
     s.engineCalls + r.engineCalls⟩

end WhisperRealtimeTranslator

namespace RealtimeTranslator

/-!  Model of realtime_translator.py. -/

/-- Queue construction in `__init__` lines 54-58: the capture→
transcription queue is `queue.Queue(maxsize=10)`. -/
def audio_queue_maxsize : Option Nat := some 10

/-- The transcription→translation queue is `queue.Queue()`: unbounded. -/
def text_queue_maxsize : Option Nat := none

/-- The translation→synthesis queue is `queue.Queue()`: unbounded. -/
def translation_queue_maxsize : Option Nat := none

/-- Outcome of one tick of `continuous_audio_capture`, mirroring its
print statements: no accumulated frames, an empty joined chunk, a
successful non-blocking enqueue, or a chunk dropped because the queue
was full (the `queue.Full` warning path). -/
inductive CaptureEvent
  | noFrames
  | emptyChunk (chunk_number : Nat)
  | enqueued (chunk_number : Nat)
  | droppedFull (chunk_number : Nat)
deriving DecidableEq

/-- The capture worker's local state: the `chunk_number` counter and the
contents of the audio queue (front = head). -/
structure CaptureState where
  chunk_number : Nat
  audio_queue : List AudioChunk
deriving DecidableEq

/-- Embedding of one tick of `continuous_audio_capture` (lines 104-125):
if frames accumulated, increment `chunk_number` and join the frames; if
the joined chunk is non-empty, try `put_nowait` on the maxsize-10 audio
queue, catching `queue.Full` by dropping the chunk with a warning.  Note
that the enqueued item (the joined bytes wrapped as `sr.AudioData`)
does not carry `chunk_number`; the counter appears only in log output. -/
def continuous_audio_capture_step (s : CaptureState)
    (audio_frames : List AudioChunk) : CaptureState × CaptureEvent :=
  if audio_frames.isEmpty then (s, CaptureEvent.noFrames)
  else
    let n := s.chunk_number + 1
    let audio_chunk := audio_frames.flatten
    if audio_chunk.isEmpty then (⟨n, s.audio_queue⟩, CaptureEvent.emptyChunk n)
    else if s.audio_queue.length < 10 then
      (⟨n, s.audio_queue ++ [audio_chunk]⟩, CaptureEvent.enqueued n)
    else (⟨n, s.audio_queue⟩, CaptureEvent.droppedFull n)

/-- The capture worker run over a finite schedule of accumulated frame
batches (one batch per tick of the `while self.is_running` loop). -/
def continuous_audio_capture_run (s : CaptureState) :
    List (List AudioChunk) → CaptureState
  | [] => s
  | b :: bs => continuous_audio_capture_run (continuous_audio_capture_step s b).1 bs

/-- Embedding of one iteration of `recognize_speech` (lines 139-162) on
a dequeued chunk: the Google recognizer is the oracle `stt`; the
exception handlers drop the item (`none`); the result is enqueued iff it
is truthy (`if text:`), i.e. a non-empty string, with no stripping. -/
def recognize_speech_step (stt : AudioChunk → Except String String)
    (audio_data : AudioChunk) : Option String :=
  match stt audio_data with
  | Except.error _ => none
  | Except.ok s => if s = "" then none else some s

/-- Embedding of one iteration of `translate_text` (lines 170-191) on a
dequeued text: there is no cache; the external engine is invoked on
every item (the Nat counts invocations, here always 1); an exception is
caught and the item dropped (`none`), else the translation is enqueued. -/
def translate_text_step (engine : String → Except String String)
    (t : String) : Option String × Nat :=
  match engine t with
  | Except.ok v => (some v, 1)
  | Except.error _ => (none, 1)

/-- The translator worker run over the texts it dequeues in FIFO order:
the texts put on the translation queue, and the total number of engine
invocations. -/
def translate_text_run (engine : String → Except String String) :
    List String → List String × Nat
  | [] => ([], 0)
  | t :: ts =>
    let s := translate_text_step engine t
    let r := translate_text_run engine ts
    ((match s.1 with
      | some v => v :: r.1
      | none => r.1), s.2 + r.2)

end RealtimeTranslator

example : WhisperRealtimeTranslator.record_audio_chunk_step [1] [] = ([[1]], true) := by
  decide

example :
    WhisperRealtimeTranslator.translate_text_run (fun t => Except.ok (t ++ "!")) []
      ["hello", "hello"] =
    ⟨[("hello", "hello!")], ["hello!", "hello!"], 1⟩ := by
  decide

example :
    RealtimeTranslator.continuous_audio_capture_step ⟨0, []⟩ [[0, 0]] =
      (⟨1, [[0, 0]]⟩, RealtimeTranslator.CaptureEvent.enqueued 1) := by
  decide

/-!  Helper lemmas shared by the claim theorems. -/

/-- A filterMap in which every member of the list maps to `some` is a map. -/
theorem filterMap_eq_map_of_mem {α β : Type} {l : List α} {F : α → Option β}
    {G : α → β} (h : ∀ x ∈ l, F x = some (G x)) : l.filterMap F = l.map G := by
  induction l with
  | nil => rfl
  | cons a l ih =>
    rw [List.filterMap_cons, h a (List.mem_cons_self a l), List.map_cons,
      ih (fun x hx => h x (List.mem_cons_of_mem a hx))]

/-- If every sample of a chunk has magnitude below a positive bound, so
does the peak amplitude. -/
theorem peakAmplitude_lt_of_forall_lt {c : AudioChunk} {b : ℚ} (hb : 0 < b)
    (h : ∀ x ∈ c, |x| < b) : peakAmplitude c < b := by
  induction c with
  | nil => simpa [peakAmplitude] using hb
  | cons a l ih =>
    have h1 : |a| < b := h a (List.mem_cons_self a l)
    have h2 : peakAmplitude l < b :=
      ih (fun x hx => h x (List.mem_cons_of_mem a hx))
    simpa [peakAmplitude] using max_lt h1 h2

/-- A successful cache lookup returns an entry of the cache. -/
theorem cache_lookup_mem {t v : String} :
    ∀ {cache : WhisperRealtimeTranslator.TranslationCache},
      WhisperRealtimeTranslator.cache_lookup t cache = some v → (t, v) ∈ cache := by
  intro cache
  induction cache with
  | nil => intro h; simp [WhisperRealtimeTranslator.cache_lookup] at h
  | cons p rest ih =>
    obtain ⟨k, w⟩ := p
    intro h
    unfold WhisperRealtimeTranslator.cache_lookup at h
    by_cases hk : k = t
    · rw [if_pos hk] at h
      cases hk
      cases Option.some.inj h
      exact List.mem_cons_self _ _
    · rw [if_neg hk] at h
      exact List.mem_cons_of_mem _ (ih h)

/-- Cache lookup over an appended cache searches the first part first. -/
theorem cache_lookup_append (t : String)
    (c₁ c₂ : WhisperRealtimeTranslator.TranslationCache) :
    WhisperRealtimeTranslator.cache_lookup t (c₁ ++ c₂) =
      match WhisperRealtimeTranslator.cache_lookup t c₁ with
      | some v => some v
      | none => WhisperRealtimeTranslator.cache_lookup t c₂ := by
  induction c₁ with
  | nil => simp [WhisperRealtimeTranslator.cache_lookup]
  | cons p rest ih =>
    obtain ⟨k, w⟩ := p
    by_cases hk : k = t <;>
      simp [WhisperRealtimeTranslator.cache_lookup, hk, ih]

/-- An entry present in the cache survives any further run of the
translator worker: `translate_text` only ever inserts at fresh keys. -/
theorem cache_lookup_persists (engine : String → Except String String)
    (t v : String) :
    ∀ (ts : List String) (cache : WhisperRealtimeTranslator.TranslationCache),
      WhisperRealtimeTranslator.cache_lookup t cache = some v →
      WhisperRealtimeTranslator.cache_lookup t
        (WhisperRealtimeTranslator.translate_text_run engine cache ts).cache = some v := by
  intro ts
  induction ts with
  | nil =>
    intro cache h
    simpa [WhisperRealtimeTranslator.translate_text_run] using h
  | cons u ts ih =>
    intro cache h
    rw [WhisperRealtimeTranslator.translate_text_run]
    apply ih
    unfold WhisperRealtimeTranslator.translate_text_step
    cases hlu : WhisperRealtimeTranslator.cache_lookup u cache with
    | some w => simpa using h
    | none =>
      cases heng : engine u with
      | ok w =>
        simp only []
        rw [cache_lookup_append, h]
      | error e => simpa using h

/-- Every entry of the cache after a run of the translator worker maps
its key to a successful engine result, provided the initial cache did. -/
theorem cache_sound_run (engine : String → Except String String) :
    ∀ (ts : List String) (cache : WhisperRealtimeTranslator.TranslationCache),
      (∀ p ∈ cache, engine p.1 = Except.ok p.2) →
      ∀ p ∈ (WhisperRealtimeTranslator.translate_text_run engine cache ts).cache,
        engine p.1 = Except.ok p.2 := by
  intro ts
  induction ts with
  | nil =>
    intro cache hs
    simpa [WhisperRealtimeTranslator.translate_text_run] using hs
  | cons u ts ih =>
    intro cache hs
    rw [WhisperRealtimeTranslator.translate_text_run]
    apply ih
    unfold WhisperRealtimeTranslator.translate_text_step
    cases hlu : WhisperRealtimeTranslator.cache_lookup u cache with
    | some w => simpa using hs
    | none =>
      cases heng : engine u with
      | ok w =>
        intro p hp
        have hp2 : p ∈ cache ∨ p = (u, w) := by simpa using hp
        rcases hp2 with hp2 | hp2
        · exact hs p hp2
        · rw [hp2]
          exact heng
      | error e => simpa using hs

/-- When the engine is the total function `g`, a translator run over any
text list produces exactly the `g`-image of the list in order, whether
each item hits the cache or not, provided every existing cache entry
already agrees with `g`. -/
theorem translate_run_outputs_map (engine : String → Except String String)
    (g : String → String) (heng : ∀ t, engine t = Except.ok (g t)) :
    ∀ (ts : List String) (cache : WhisperRealtimeTranslator.TranslationCache),
      (∀ p ∈ cache, p.2 = g p.1) →
      (WhisperRealtimeTranslator.translate_text_run engine cache ts).outputs = ts.map g ∧
      (∀ p ∈ (WhisperRealtimeTranslator.translate_text_run engine cache ts).cache,
        p.2 = g p.1) := by
  intro ts
  induction ts with
  | nil =>
    intro cache hc
    exact ⟨rfl, by simpa [WhisperRealtimeTranslator.translate_text_run] using hc⟩
  | cons u ts ih =>
    intro cache hc
    cases hlu : WhisperRealtimeTranslator.cache_lookup u cache with
    | some w =>
      have hw : w = g u := by simpa using hc (u, w) (cache_lookup_mem hlu)
      have hstep : WhisperRealtimeTranslator.translate_text_step engine cache u =
          ⟨cache, some w, 0, WhisperRealtimeTranslator.TranslateEvent.cacheHit⟩ := by
        unfold WhisperRealtimeTranslator.translate_text_step
        rw [hlu]
      obtain ⟨ho, hcc⟩ := ih cache hc
      constructor
      · simp only [WhisperRealtimeTranslator.translate_text_run, hstep]
        simp [ho, hw]
      · simp only [WhisperRealtimeTranslator.translate_text_run, hstep]
        exact hcc
    | none =>
      have hstep : WhisperRealtimeTranslator.translate_text_step engine cache u =
          ⟨cache ++ [(u, g u)], some (g u), 1,
           WhisperRealtimeTranslator.TranslateEvent.engineOk⟩ := by
        unfold WhisperRealtimeTranslator.translate_text_step
        rw [hlu, heng u]
      have hc2 : ∀ p ∈ cache ++ [(u, g u)], p.2 = g p.1 := by
        intro p hp
        rcases List.mem_append.mp hp with hp | hp
        · exact hc p hp
        · simp only [List.mem_singleton] at hp
          rw [hp]
      obtain ⟨ho, hcc⟩ := ih (cache ++ [(u, g u)]) hc2
      constructor
      · simp only [WhisperRealtimeTranslator.translate_text_run, hstep]
        simp [ho]
      · simp only [WhisperRealtimeTranslator.translate_text_run, hstep]
        exact hcc

/-- When every buffer of the schedule passes the silence filter, the
Whisper capture worker enqueues all of them in order after any prefix. -/
theorem record_run_from (bs : List AudioChunk) :
    ∀ acc, (∀ b ∈ bs, b ≠ [] ∧ silenceThreshold < peakAmplitude b) →
      bs.foldl (fun q b => (WhisperRealtimeTranslator.record_audio_chunk_step b q).1)
        acc = acc ++ bs := by
  induction bs with
  | nil => intro acc _; simp
  | cons b bs ih =>
    intro acc hb
    have hb1 := hb b (List.mem_cons_self b bs)
    have hstep : (WhisperRealtimeTranslator.record_audio_chunk_step b acc).1 =
        acc ++ [b] := by
      unfold WhisperRealtimeTranslator.record_audio_chunk_step
      rw [if_pos (List.length_pos.mpr hb1.1), if_pos hb1.2]
    rw [List.foldl_cons, hstep,
      ih (acc ++ [b]) (fun x hx => hb x (List.mem_cons_of_mem b hx))]
    simp

/-- The chunk counter of the capture worker of RealtimeTranslator is
incremented exactly when the tick saw accumulated frames, in every
branch of the step. -/
theorem capture_step_chunk_number (s : RealtimeTranslator.CaptureState)
    (b : List AudioChunk) :
    (RealtimeTranslator.continuous_audio_capture_step s b).1.chunk_number =
      if b.isEmpty then s.chunk_number else s.chunk_number + 1 := by
  unfold RealtimeTranslator.continuous_audio_capture_step
  split
  next h => simp [h]
  next h =>
    simp only [h, if_false, Bool.false_eq_true]
    split
    · rfl
    · split <;> rfl

/-- A capture step either leaves the audio queue unchanged or appends
the joined chunk of this tick. -/
theorem capture_step_queue_cases (s : RealtimeTranslator.CaptureState)
    (b : List AudioChunk) :
    (RealtimeTranslator.continuous_audio_capture_step s b).1.audio_queue =
        s.audio_queue ∨
      (RealtimeTranslator.continuous_audio_capture_step s b).1.audio_queue =
        s.audio_queue ++ [b.flatten] := by
  unfold RealtimeTranslator.continuous_audio_capture_step
  by_cases h1 : b.isEmpty
  · simp [h1]
  · by_cases h2 : b.flatten.isEmpty
    · simp [h1, h2]
    · by_cases h3 : s.audio_queue.length < 10
      · simp [h1, h2, h3]
      · simp [h1, h2, h3]

/-- Over a whole capture run, the chunk counter advances by the number
of ticks that saw accumulated frames. -/
theorem capture_run_chunk_number (bs : List (List AudioChunk)) :
    ∀ s, (RealtimeTranslator.continuous_audio_capture_run s bs).chunk_number =
      s.chunk_number + bs.countP (fun b => !b.isEmpty) := by
  induction bs with
  | nil =>
    intro s
    simp [RealtimeTranslator.continuous_audio_capture_run]
  | cons b bs ih =>
    intro s
    rw [RealtimeTranslator.continuous_audio_capture_run, ih, List.countP_cons,
      capture_step_chunk_number]
    by_cases hb : b.isEmpty
    · simp [hb]
    · have hb2 : b.isEmpty = false := by
        cases hob : b.isEmpty
        · rfl
        · exact absurd hob hb
      simp [hb2]
      omega

/-- The audio queue produced by a capture run extends the initial queue
by an in-order selection of the joined chunks of the schedule. -/
theorem capture_run_queue_sublist (bs : List (List AudioChunk)) :
    ∀ s, ∃ t, (RealtimeTranslator.continuous_audio_capture_run s bs).audio_queue =
        s.audio_queue ++ t ∧ List.Sublist t (bs.map List.flatten) := by
  induction bs with
  | nil =>
    intro s
    exact ⟨[], by simp [RealtimeTranslator.continuous_audio_capture_run],
      List.nil_sublist _⟩
  | cons b bs ih =>
    intro s
    obtain ⟨t, ht, hsub⟩ := ih (RealtimeTranslator.continuous_audio_capture_step s b).1
    rcases capture_step_queue_cases s b with hq | hq
    · refine ⟨t, ?_, ?_⟩
      · rw [RealtimeTranslator.continuous_audio_capture_run, ht, hq]
      · exact List.Sublist.cons _ hsub
    · refine ⟨b.flatten :: t, ?_, ?_⟩
      · rw [RealtimeTranslator.continuous_audio_capture_run, ht, hq]
        simp
      · exact List.Sublist.cons₂ _ hsub

/-!  Claim theorems. -/

/-- C2: whenever the capture→transcription queue of RealtimeTranslator
is full (it holds its maxsize of 10 items), the capture worker's
non-blocking `put_nowait` of a freshly joined chunk leaves the queue
exactly unchanged — so the chunk is never observed downstream — the
step reports the drop as the `queue.Full` warning event (not an
exception escaping the loop), and the loop state stays well-formed with
the chunk counter advanced, so capture continues with the next tick. -/
theorem capture_drop_on_full (s : RealtimeTranslator.CaptureState)
    (audio_frames : List AudioChunk)
    (hfull : 10 ≤ s.audio_queue.length)
    (hframes : audio_frames.isEmpty = false)
    (hchunk : audio_frames.flatten.isEmpty = false) :
    RealtimeTranslator.continuous_audio_capture_step s audio_frames =
      (⟨s.chunk_number + 1, s.audio_queue⟩,
       RealtimeTranslator.CaptureEvent.droppedFull (s.chunk_number + 1)) := by
  unfold RealtimeTranslator.continuous_audio_capture_step
  rw [hframes]
  simp [hchunk, Nat.not_lt.mpr hfull]

/-- Witness for C2 at a concrete full queue of 10 chunks. -/
theorem capture_drop_on_full_witness :
    RealtimeTranslator.continuous_audio_capture_step
        ⟨3, List.replicate 10 [1]⟩ [[2]] =
      (⟨4, List.replicate 10 [1]⟩,
       RealtimeTranslator.CaptureEvent.droppedFull 4) :=
  capture_drop_on_full ⟨3, List.replicate 10 [1]⟩ [[2]]
    (by decide) (by decide) (by decide)

/-- C4 counterexample: the claim fails on RealtimeTranslator, whose
`continuous_audio_capture` applies no silence filter: a chunk that is
all zeros — every sample magnitude below the 0.01 threshold — is
nevertheless enqueued onto the capture→transcription queue. -/
theorem rt_silent_chunk_enqueued :
    RealtimeTranslator.continuous_audio_capture_step ⟨0, []⟩ [[0, 0, 0]] =
      (⟨1, [[0, 0, 0]]⟩, RealtimeTranslator.CaptureEvent.enqueued 1) ∧
    peakAmplitude [0, 0, 0] < silenceThreshold :=
  ⟨by decide, by decide⟩

/-- C4 (amended): in WhisperRealtimeTranslator the silence filter works
as claimed — a non-empty buffer in which every sample's magnitude is
below the 0.01 threshold is discarded and never enqueued, and a buffer
whose peak amplitude exceeds the threshold is always enqueued (the
audio queue is unbounded, so capacity always permits); RealtimeTranslator
performs no silence filtering and enqueues any chunk with non-empty
data, capacity permitting. -/
theorem whisper_silence_filtering (audio_buffer : AudioChunk)
    (q : List AudioChunk) (hne : audio_buffer ≠ []) :
    ((∀ x ∈ audio_buffer, |x| < silenceThreshold) →
      WhisperRealtimeTranslator.record_audio_chunk_step audio_buffer q =
        (q, false)) ∧
    (silenceThreshold < peakAmplitude audio_buffer →
      WhisperRealtimeTranslator.record_audio_chunk_step audio_buffer q =
        (q ++ [audio_buffer], true)) := by
  have hlen : audio_buffer.length > 0 := List.length_pos.mpr hne
  constructor
  · intro hall
    have hpk : peakAmplitude audio_buffer < silenceThreshold :=
      peakAmplitude_lt_of_forall_lt (by decide) hall
    unfold WhisperRealtimeTranslator.record_audio_chunk_step
    rw [if_pos hlen, if_neg (not_lt.mpr hpk.le)]
  · intro hpk
    unfold WhisperRealtimeTranslator.record_audio_chunk_step
    rw [if_pos hlen, if_pos hpk]

/-- Witness for C4's amended theorem: a quiet buffer (peak 1/200) is
discarded, a loud buffer (peak 1) is enqueued. -/
theorem whisper_silence_filtering_witness :
    WhisperRealtimeTranslator.record_audio_chunk_step [mkRat 1 200] [] =
      ([], false) ∧
    WhisperRealtimeTranslator.record_audio_chunk_step [1] [] =
      ([[1]], true) :=
  ⟨(whisper_silence_filtering [mkRat 1 200] [] (by decide)).1 (by decide),
   (whisper_silence_filtering [1] [] (by decide)).2 (by decide)⟩

/-- C6 counterexample: of the three inter-stage queues, only
RealtimeTranslator's capture→transcription queue is constructed with a
capacity; the transcription→translation and translation→synthesis
queues of RealtimeTranslator and all three queues of
WhisperRealtimeTranslator are `queue.Queue()` with no maxsize, and 11
consecutive blocking puts on such a queue all succeed, giving length 11
— exceeding the only capacity (10) configured anywhere in the system. -/
theorem unbounded_queues_counterexample :
    RealtimeTranslator.text_queue_maxsize = none ∧
    RealtimeTranslator.translation_queue_maxsize = none ∧
    WhisperRealtimeTranslator.audio_queue_maxsize = none ∧
    WhisperRealtimeTranslator.text_queue_maxsize = none ∧
    WhisperRealtimeTranslator.translation_queue_maxsize = none ∧
    ((List.replicate 11 "x").foldl (queue_put none) []).length = 11 :=
  ⟨rfl, rfl, rfl, rfl, rfl, by decide⟩

/-- An unbounded put always appends, so n puts on an unbounded queue
grow it by exactly n. -/
theorem queue_put_none_growth {α : Type} (l : List α) :
    ∀ q : List α, (l.foldl (queue_put none) q).length = q.length + l.length := by
  induction l with
  | nil => intro q; simp
  | cons x l ih =>
    intro q
    rw [List.foldl_cons, ih]
    simp [queue_put]
    omega

/-- C6 (amended): only the capture→transcription queue of
RealtimeTranslator is bounded — it is built with maxsize 10 and the
drop-on-full capture step keeps its length at or below 10 — while the
other inter-stage queues (and all of WhisperRealtimeTranslator's) are
unbounded: n blocking puts on them always succeed and grow the queue to
length n. -/
theorem queue_boundedness (s : RealtimeTranslator.CaptureState)
    (b : List AudioChunk) (n : Nat)
    (hs : s.audio_queue.length ≤ 10) :
    RealtimeTranslator.audio_queue_maxsize = some 10 ∧
    (RealtimeTranslator.continuous_audio_capture_step s b).1.audio_queue.length
      ≤ 10 ∧
    ((List.replicate n "x").foldl (queue_put none) []).length = n := by
  refine ⟨rfl, ?_, ?_⟩
  · rcases capture_step_queue_cases s b with hq | hq
    · rw [hq]; exact hs
    · rw [hq]
      -- in the append case the step's guard ensured length < 10
      by_cases h3 : s.audio_queue.length < 10
      · simp only [List.length_append, List.length_cons, List.length_nil]
        omega
      · -- with a full queue the step cannot have appended
        exfalso
        rcases capture_step_queue_cases s b with hq2 | hq2
        · rw [hq2] at hq
          have : s.audio_queue.length = s.audio_queue.length + 1 := by
            conv_lhs => rw [hq]
            simp
          omega
        · -- derive the contradiction from the step definition directly
          have hfl : (RealtimeTranslator.continuous_audio_capture_step s b).1.audio_queue
              = s.audio_queue := by
            unfold RealtimeTranslator.continuous_audio_capture_step
            by_cases h1 : b.isEmpty
            · simp [h1]
            · by_cases h2 : b.flatten.isEmpty
              · simp [h1, h2]
              · simp [h1, h2, h3]
          rw [hfl] at hq
          have : s.audio_queue.length = (s.audio_queue ++ [b.flatten]).length := by
            rw [← hq]
          simp at this
  · rw [queue_put_none_growth]
    simp

/-- Witness for C6's amended theorem at a concrete state and n = 11. -/
theorem queue_boundedness_witness :
    RealtimeTranslator.audio_queue_maxsize = some 10 ∧
    (RealtimeTranslator.continuous_audio_capture_step
        ⟨0, List.replicate 10 [1]⟩ [[2]]).1.audio_queue.length ≤ 10 ∧
    ((List.replicate 11 "y").foldl (queue_put none) []).length = 11 :=
  queue_boundedness ⟨0, List.replicate 10 [1]⟩ [[2]] 11 (by decide)

/-- C7 counterexample: the sequence number is not carried onto the
items that flow downstream.  The same accumulated frames captured at
chunk numbers 1 and 6 produce byte-for-byte identical queue entries
(`sr.AudioData` holds only the joined bytes, rate and width), while the
chunk numbers — which appear only in the capture worker's log events —
differ; no downstream stage can recover the sequence number from a
queue item, so it is not "carried unchanged onto the TranscriptSegment
and TranslatedSegment". -/
theorem seq_number_not_carried :
    (RealtimeTranslator.continuous_audio_capture_step ⟨0, []⟩ [[1]]).1.audio_queue =
      (RealtimeTranslator.continuous_audio_capture_step ⟨5, []⟩ [[1]]).1.audio_queue ∧
    (RealtimeTranslator.continuous_audio_capture_step ⟨0, []⟩ [[1]]).2 ≠
      (RealtimeTranslator.continuous_audio_capture_step ⟨5, []⟩ [[1]]).2 :=
  ⟨by decide, by decide⟩

/-- C7 (amended): the capture worker's `chunk_number` counter increases
by exactly one for every tick that saw accumulated frames (dropped and
empty chunks consume numbers too, creating gaps), so it is monotonically
increasing per chunk; the queue items themselves carry no sequence
number, but the audio queue is FIFO, so the queue contents after any
capture run are an in-order selection of the joined chunks in capture
order — gaps from drops, never reordering. -/
theorem capture_sequence_numbering (s : RealtimeTranslator.CaptureState)
    (n : Nat) (bs : List (List AudioChunk)) :
    (RealtimeTranslator.continuous_audio_capture_run s bs).chunk_number =
      s.chunk_number + bs.countP (fun b => !b.isEmpty) ∧
    List.Sublist
      (RealtimeTranslator.continuous_audio_capture_run ⟨n, []⟩ bs).audio_queue
      (bs.map List.flatten) := by
  constructor
  · exact capture_run_chunk_number bs s
  · obtain ⟨t, ht, hsub⟩ := capture_run_queue_sublist bs ⟨n, []⟩
    rw [ht]
    simpa using hsub

/-- C9 counterexample: the claim fails on RealtimeTranslator, whose
`recognize_speech` checks only Python truthiness (`if text:`) without
stripping — a whitespace-only recognizer result such as a single space
is enqueued onto the transcription→translation queue rather than
discarded. -/
theorem rt_whitespace_text_enqueued :
    RealtimeTranslator.recognize_speech_step (fun _ => Except.ok " ") [0] =
      some " " ∧
    pyStrip " " = "" :=
  ⟨by decide, by decide⟩

/-- C9 (amended): WhisperRealtimeTranslator strips the engine result and
enqueues nothing when the stripped text is empty (so empty and
whitespace-only results are discarded), and enqueues exactly one
segment — the stripped text — otherwise; RealtimeTranslator discards
only the exactly-empty result and enqueues any other text, including
whitespace-only text, unchanged. -/
theorem transcriber_blank_filtering (stt : AudioChunk → Except String String)
    (c : AudioChunk) (s : String) (h : stt c = Except.ok s) :
    WhisperRealtimeTranslator.transcribe_audio_step stt c =
      (if pyStrip s = "" then none else some (pyStrip s)) ∧
    RealtimeTranslator.recognize_speech_step stt c =
      (if s = "" then none else some s) := by
  constructor
  · unfold WhisperRealtimeTranslator.transcribe_audio_step
    rw [h]
  · unfold RealtimeTranslator.recognize_speech_step
    rw [h]

/-- Witness for C9's amended theorem: the result " hi " is stripped to
"hi" by the Whisper transcriber and passed through verbatim by the
basic recognizer. -/
theorem transcriber_blank_filtering_witness :
    WhisperRealtimeTranslator.transcribe_audio_step
        (fun _ => Except.ok " hi ") [1] = some "hi" ∧
    RealtimeTranslator.recognize_speech_step
        (fun _ => Except.ok " hi ") [1] = some " hi " :=
  ⟨(transcriber_blank_filtering (fun _ => Except.ok " hi ") [1] " hi " rfl).1.trans
      (by decide),
   (transcriber_blank_filtering (fun _ => Except.ok " hi ") [1] " hi " rfl).2.trans
      (by decide)⟩

/-- C3 counterexample: the claim fails on RealtimeTranslator, whose
`translate_text` has no cache at all: translating the same text twice
invokes the external engine twice (two invocations, not at most one),
and both results come from the engine. -/
theorem rt_no_cache_double_invocation :
    (RealtimeTranslator.translate_text_run (fun t => Except.ok (t ++ "!"))
        ["hello", "hello"]).2 = 2 ∧
    (RealtimeTranslator.translate_text_run (fun t => Except.ok (t ++ "!"))
        ["hello", "hello"]).1 = ["hello!", "hello!"] :=
  ⟨by decide, by decide⟩

/-- C3 (amended): in WhisperRealtimeTranslator the claim holds — the
first translation of T invokes the engine once and stores the result
keyed exactly by T, the second is served from the cache with zero
further invocations, and lookup is exact-string (case- and
whitespace-sensitive); RealtimeTranslator has no cache and invokes the
engine once per dequeued text, repeats included. -/
theorem whisper_cache_correctness (engine : String → Except String String)
    (t v : String) (h : engine t = Except.ok v) :
    WhisperRealtimeTranslator.translate_text_run engine [] [t, t] =
      ⟨[(t, v)], [v, v], 1⟩ ∧
    (∀ u, WhisperRealtimeTranslator.cache_lookup u [(t, v)] =
      if t = u then some v else none) := by
  constructor
  · simp [WhisperRealtimeTranslator.translate_text_run,
      WhisperRealtimeTranslator.translate_text_step,
      WhisperRealtimeTranslator.cache_lookup, h]
  · intro u
    simp [WhisperRealtimeTranslator.cache_lookup]

/-- Witness for C3's amended theorem: "hello" translated twice via an
engine appending "!" yields one engine call, the cache entry keyed
exactly "hello", both outputs served, and a lookup of the
differently-cased "Hello" misses. -/
theorem whisper_cache_correctness_witness :
    WhisperRealtimeTranslator.translate_text_run
        (fun u => Except.ok (u ++ "!")) [] ["hello", "hello"] =
      ⟨[("hello", "hello!")], ["hello!", "hello!"], 1⟩ ∧
    WhisperRealtimeTranslator.cache_lookup "Hello" [("hello", "hello!")] =
      none :=
  ⟨(whisper_cache_correctness (fun u => Except.ok (u ++ "!")) "hello" "hello!"
      rfl).1,
   ((whisper_cache_correctness (fun u => Except.ok (u ++ "!")) "hello" "hello!"
      rfl).2 "Hello").trans (by decide)⟩

/-- C8: when the external translation engine raises on a dequeued
segment (a cache miss, so the engine is actually invoked), the
exception is caught inside the translator worker and logged as the
engineFailed event, the cache and downstream queue are untouched for
that segment, the worker processes the remaining items exactly as if
the failed segment had never been dequeued (dropped, not retried, not
re-enqueued), and no error value ever reaches the translation queue —
in both implementations. -/
theorem translator_error_containment (engine : String → Except String String)
    (cache : WhisperRealtimeTranslator.TranslationCache) (t e : String)
    (ts : List String)
    (h : engine t = Except.error e)
    (hmiss : WhisperRealtimeTranslator.cache_lookup t cache = none) :
    WhisperRealtimeTranslator.translate_text_step engine cache t =
      ⟨cache, none, 1, WhisperRealtimeTranslator.TranslateEvent.engineFailed⟩ ∧
    (WhisperRealtimeTranslator.translate_text_run engine cache (t :: ts)).cache =
      (WhisperRealtimeTranslator.translate_text_run engine cache ts).cache ∧
    (WhisperRealtimeTranslator.translate_text_run engine cache (t :: ts)).outputs =
      (WhisperRealtimeTranslator.translate_text_run engine cache ts).outputs ∧
    RealtimeTranslator.translate_text_step engine t = (none, 1) ∧
    (RealtimeTranslator.translate_text_run engine (t :: ts)).1 =
      (RealtimeTranslator.translate_text_run engine ts).1 := by
  have hstep : WhisperRealtimeTranslator.translate_text_step engine cache t =
      ⟨cache, none, 1, WhisperRealtimeTranslator.TranslateEvent.engineFailed⟩ := by
    unfold WhisperRealtimeTranslator.translate_text_step
    rw [hmiss, h]
  have hrt : RealtimeTranslator.translate_text_step engine t = (none, 1) := by
    unfold RealtimeTranslator.translate_text_step
    rw [h]
  refine ⟨hstep, ?_, ?_, hrt, ?_⟩
  · simp only [WhisperRealtimeTranslator.translate_text_run, hstep]
  · simp only [WhisperRealtimeTranslator.translate_text_run, hstep]
  · simp only [RealtimeTranslator.translate_text_run, hrt]

/-- Witness for C8 with a concrete always-failing engine. -/
theorem translator_error_containment_witness :
    WhisperRealtimeTranslator.translate_text_step
        (fun _ => Except.error "boom") [] "hi" =
      ⟨[], none, 1, WhisperRealtimeTranslator.TranslateEvent.engineFailed⟩ ∧
    (WhisperRealtimeTranslator.translate_text_run
        (fun _ => Except.error "boom") [] ["hi", "x"]).outputs =
      (WhisperRealtimeTranslator.translate_text_run
        (fun _ => Except.error "boom") [] ["x"]).outputs ∧
    (RealtimeTranslator.translate_text_run
        (fun _ => Except.error "boom") ["hi", "x"]).1 =
      (RealtimeTranslator.translate_text_run
        (fun _ => Except.error "boom") ["x"]).1 :=
  ⟨(translator_error_containment (fun _ => Except.error "boom") [] "hi" "boom"
      ["x"] rfl rfl).1,
   (translator_error_containment (fun _ => Except.error "boom") [] "hi" "boom"
      ["x"] rfl rfl).2.2.1,
   (translator_error_containment (fun _ => Except.error "boom") [] "hi" "boom"
      ["x"] rfl rfl).2.2.2.2⟩

/-- C10: the translator mutates the cache only after a successful engine
return.  If the engine raises on an uncached text, the step leaves the
cache exactly unchanged and enqueues nothing; an entry once present
survives any further run unchanged (entries are never overwritten,
because `translate_text` writes only at keys that missed); and, starting
from a cache whose entries all agree with the engine, any entry found
after a run maps its source text to the engine's successful result for
it. -/
theorem cache_write_discipline (engine : String → Except String String)
    (cache : WhisperRealtimeTranslator.TranslationCache) (t v e : String)
    (ts : List String) :
    (engine t = Except.error e →
      WhisperRealtimeTranslator.cache_lookup t cache = none →
      WhisperRealtimeTranslator.translate_text_step engine cache t =
        ⟨cache, none, 1, WhisperRealtimeTranslator.TranslateEvent.engineFailed⟩) ∧
    (WhisperRealtimeTranslator.cache_lookup t cache = some v →
      WhisperRealtimeTranslator.cache_lookup t
        (WhisperRealtimeTranslator.translate_text_run engine cache ts).cache =
        some v) ∧
    ((∀ p ∈ cache, engine p.1 = Except.ok p.2) →
      WhisperRealtimeTranslator.cache_lookup t
        (WhisperRealtimeTranslator.translate_text_run engine cache ts).cache =
        some v →
      engine t = Except.ok v) := by
  refine ⟨?_, ?_, ?_⟩
  · intro h hmiss
    unfold WhisperRealtimeTranslator.translate_text_step
    rw [hmiss, h]
  · intro h
    exact cache_lookup_persists engine t v ts cache h
  · intro hs hl
    simpa using cache_sound_run engine ts cache hs (t, v) (cache_lookup_mem hl)

/-- Witness for C10: a failing engine leaves the empty cache empty; an
existing entry ("hi" → "yo") survives a run that translates "a"; and
the entry created by running "y" through a succeeding engine records
exactly that engine's result. -/
theorem cache_write_discipline_witness :
    WhisperRealtimeTranslator.translate_text_step
        (fun _ => Except.error "boom") [] "bad" =
      ⟨[], none, 1, WhisperRealtimeTranslator.TranslateEvent.engineFailed⟩ ∧
    WhisperRealtimeTranslator.cache_lookup "hi"
        (WhisperRealtimeTranslator.translate_text_run
          (fun u => Except.ok (u ++ "!")) [("hi", "yo")] ["a"]).cache =
      some "yo" ∧
    (fun u => Except.ok (u ++ "!")) "y" = (Except.ok "y!" : Except String String) :=
  ⟨(cache_write_discipline (fun _ => Except.error "boom") [] "bad" "" "boom"
      []).1 rfl rfl,
   (cache_write_discipline (fun u => Except.ok (u ++ "!")) [("hi", "yo")] "hi"
      "yo" "" ["a"]).2.1 (by decide),
   (cache_write_discipline (fun u => Except.ok (u ++ "!")) [] "y" "y!" ""
      ["y"]).2.2 (by intro p hp; simp at hp) (by decide)⟩

/-- C5: the Synthesizer/Player loop guard `while is_running or not
translation_queue.empty()` is true whenever the queue is non-empty, so
the worker never terminates while items remain, and it is false once
the flag is down and the queue empty, so the worker then exits; after
stop is signalled (flag false), the drain processes every queued item
in FIFO order, and when synthesis succeeds on each of them every
already-translated segment is synthesized and played before exit.  The
guard and loop are identical in both implementations. -/
theorem speaker_drains_queue (translation_queue : List String)
    (tts : String → Except String String) (f : String → String)
    (h : ∀ t ∈ translation_queue, tts t = Except.ok (f t)) :
    (speaker_loop_continues false translation_queue = true ↔
      translation_queue ≠ []) ∧
    speaker_loop_continues false [] = false ∧
    speak_translation_drain tts translation_queue = translation_queue.map f := by
  refine ⟨?_, rfl, ?_⟩
  · simp [speaker_loop_continues]
  · unfold speak_translation_drain
    apply filterMap_eq_map_of_mem
    intro x hx
    unfold speak_translation_step
    rw [h x hx]

/-- Witness for C5 on the one-item queue ["hola"]. -/
theorem speaker_drains_queue_witness :
    (speaker_loop_continues false ["hola"] = true ↔ ["hola"] ≠ []) ∧
    speaker_loop_continues false [] = false ∧
    speak_translation_drain (fun t => Except.ok (t ++ ".mp3")) ["hola"] =
      ["hola"].map (fun t => t ++ ".mp3") :=
  speaker_drains_queue ["hola"] (fun t => Except.ok (t ++ ".mp3"))
    (fun t => t ++ ".mp3") (fun _ _ => rfl)

/-- C1: end-to-end no-loss of the WhisperRealtimeTranslator pipeline
(whose queues are unbounded, so no queue is ever full).  For any finite
schedule of N non-silent chunks, when the speech-to-text engine
succeeds with non-blank text on each chunk and the translation and
synthesis engines succeed on every input, the capture stage enqueues
all N chunks in order, the transcriber emits exactly the N stripped
transcripts in order, the translator emits exactly the N translations
in order — each served from the engine or from the cache, both of
which agree with the engine function g — and the synthesizer plays
exactly the N utterances in order; each stage's output is the image of
the original chunk sequence under a map, so original sequence order is
preserved throughout. -/
theorem pipeline_no_loss
    (bs : List AudioChunk)
    (stt : AudioChunk → Except String String) (f : AudioChunk → String)
    (engine : String → Except String String) (g : String → String)
    (tts : String → Except String String) (play : String → String)
    (hb : ∀ b ∈ bs, b ≠ [] ∧ silenceThreshold < peakAmplitude b)
    (hstt : ∀ b ∈ bs, stt b = Except.ok (f b) ∧ pyStrip (f b) ≠ "")
    (heng : ∀ t, engine t = Except.ok (g t))
    (htts : ∀ t, tts t = Except.ok (play t)) :
    WhisperRealtimeTranslator.record_audio_chunk_run bs = bs ∧
    WhisperRealtimeTranslator.transcribe_audio_run stt
        (WhisperRealtimeTranslator.record_audio_chunk_run bs) =
      bs.map (fun b => pyStrip (f b)) ∧
    (WhisperRealtimeTranslator.translate_text_run engine []
        (WhisperRealtimeTranslator.transcribe_audio_run stt
          (WhisperRealtimeTranslator.record_audio_chunk_run bs))).outputs =
      bs.map (fun b => g (pyStrip (f b))) ∧
    speak_translation_drain tts
        ((WhisperRealtimeTranslator.translate_text_run engine []
          (WhisperRealtimeTranslator.transcribe_audio_run stt
            (WhisperRealtimeTranslator.record_audio_chunk_run bs))).outputs) =
      bs.map (fun b => play (g (pyStrip (f b)))) ∧
    (bs.map (fun b => pyStrip (f b))).length = bs.length ∧
    (bs.map (fun b => g (pyStrip (f b)))).length = bs.length ∧
    (bs.map (fun b => play (g (pyStrip (f b))))).length = bs.length := by
  have h1 : WhisperRealtimeTranslator.record_audio_chunk_run bs = bs := by
    unfold WhisperRealtimeTranslator.record_audio_chunk_run
    simpa using record_run_from bs [] hb
  have h2 : WhisperRealtimeTranslator.transcribe_audio_run stt bs =
      bs.map (fun b => pyStrip (f b)) := by
    unfold WhisperRealtimeTranslator.transcribe_audio_run
    apply filterMap_eq_map_of_mem
    intro b hbs
    unfold WhisperRealtimeTranslator.transcribe_audio_step
    rw [(hstt b hbs).1]
    simp [(hstt b hbs).2]
  have h3 : (WhisperRealtimeTranslator.translate_text_run engine []
      (bs.map (fun b => pyStrip (f b)))).outputs =
      (bs.map (fun b => pyStrip (f b))).map g := by
    exact (translate_run_outputs_map engine g heng
      (bs.map (fun b => pyStrip (f b))) [] (by intro p hp; simp at hp)).1
  have h4 : speak_translation_drain tts (bs.map (fun b => g (pyStrip (f b)))) =
      (bs.map (fun b => g (pyStrip (f b)))).map play := by
    unfold speak_translation_drain
    apply filterMap_eq_map_of_mem
    intro x _
    unfold speak_translation_step
    rw [htts x]
  have hmap : (bs.map (fun b => pyStrip (f b))).map g =
      bs.map (fun b => g (pyStrip (f b))) := by
    rw [List.map_map]
    rfl
  refine ⟨h1, ?_, ?_, ?_, by simp, by simp, by simp⟩
  · rw [h1, h2]
  · rw [h1, h2, h3, hmap]
  · rw [h1, h2, h3, hmap, h4, List.map_map]
    rfl

/-- Witness for C1 on a one-chunk schedule with concrete engines. -/
theorem pipeline_no_loss_witness :
    WhisperRealtimeTranslator.record_audio_chunk_run [[1]] = [[1]] ∧
    WhisperRealtimeTranslator.transcribe_audio_run (fun _ => Except.ok " hi ")
        (WhisperRealtimeTranslator.record_audio_chunk_run [[1]]) = ["hi"] ∧
    (WhisperRealtimeTranslator.translate_text_run (fun u => Except.ok (u ++ "!"))
        [] (WhisperRealtimeTranslator.transcribe_audio_run
          (fun _ => Except.ok " hi ")
          (WhisperRealtimeTranslator.record_audio_chunk_run [[1]]))).outputs =
      ["hi!"] ∧
    speak_translation_drain (fun u => Except.ok (u ++ ".mp3"))
        ((WhisperRealtimeTranslator.translate_text_run
          (fun u => Except.ok (u ++ "!")) []
          (WhisperRealtimeTranslator.transcribe_audio_run
            (fun _ => Except.ok " hi ")
            (WhisperRealtimeTranslator.record_audio_chunk_run [[1]]))).outputs) =
      ["hi!.mp3"] := by
  have h := pipeline_no_loss [[1]] (fun _ => Except.ok " hi ") (fun _ => " hi ")
    (fun u => Except.ok (u ++ "!")) (fun u => u ++ "!")
    (fun u => Except.ok (u ++ ".mp3")) (fun u => u ++ ".mp3")
    (by decide)
    (by
      intro b hbs
      refine ⟨rfl, ?_⟩
      show pyStrip " hi " ≠ ""
      decide)
    (fun t => rfl) (fun t => rfl)
  exact ⟨h.1, h.2.1.trans (by decide), h.2.2.1.trans (by decide),
    h.2.2.2.1.trans (by decide)⟩
